import Mathlib

set_option maxRecDepth 100000

/-!
# Verification of the MIPI CSI-2 D-PHY sigrok decoder core

Shallow embedding of `mipi_csi2_dphy/pd.py` (class `Decoder`): the lane state
classifier (`detect_lane_state`), the bit/byte deserializer (`shift_bits`),
the packet assembler (`process_packet_byte`, `analyze_packet_header`,
`process_complete_packet`), the pixel unpacker (`decode_pixel_data`) and the
lane-count estimator (`detect_active_lanes`).

Python integers become `Nat` (all byte values stay below 256 by construction,
shifts/masks are carried over literally).  Per-lane arrays of length 4 become
the `Lanes` structure indexed by `Fin 4`.  The mutable decoder object becomes
the explicit state record `DecState`; every method returns the updated state
together with the list of structured events it emits on the python output
(`putp`) channel.  Timestamps only affect annotation spans, not which events
are produced or their payloads, so they are not tracked in events.
-/

/-- D-PHY lane states, from the `LANE_STATE_*` constants in `pd.py`. -/
inductive LaneState where
  | lp11
  | lp01
  | lp00
  | lp10
  | thsSettle
  | hs
  | hsSync
  | hsTrail
deriving DecidableEq, Repr

/-- Packet parsing states (`self.packet_state`): `IDLE`, `COLLECTING_PACKET`,
`SYNC_DETECTED`. -/
inductive PacketState where
  | idle
  | collectingPacket
  | syncDetected
deriving DecidableEq, Repr

/-- Structured events emitted on the python output channel (`putp`). -/
inductive Event where
  | laneStateEv (lane : Nat) (st : LaneState)
  | syncEv (lane : Nat)
  | shortPacket (dataType virtualChannel dataField : Nat)
  | longPacket (dataType virtualChannel wordCount : Nat) (payload : List Nat)
  | footer (checksum : List Nat)
  | packetComplete
  | laneCount (n : Nat)
  | errorEv (msg : String)
deriving DecidableEq, Repr

/-- `true` exactly for protocol-error events. -/
def Event.isError : Event → Bool
  | .errorEv _ => true
  | _ => false

/-- A fixed 4-entry per-lane array (the python code always uses
`[...] * 4` arrays indexed by `lane in range(4)`). -/
structure Lanes (α : Type) where
  l0 : α
  l1 : α
  l2 : α
  l3 : α
deriving DecidableEq, Repr

namespace Lanes

/-- Read the entry of one lane. -/
def get (v : Lanes α) : Fin 4 → α
  | ⟨0, _⟩ => v.l0
  | ⟨1, _⟩ => v.l1
  | ⟨2, _⟩ => v.l2
  | ⟨3, _⟩ => v.l3

/-- Replace the entry of one lane. -/
def set (v : Lanes α) : Fin 4 → α → Lanes α
  | ⟨0, _⟩, a => { v with l0 := a }
  | ⟨1, _⟩, a => { v with l1 := a }
  | ⟨2, _⟩, a => { v with l2 := a }
  | ⟨3, _⟩, a => { v with l3 := a }

/-- The constant array. -/
def const (a : α) : Lanes α := ⟨a, a, a, a⟩

/-- Pointwise combination of two per-lane arrays; used for the
`for l in range(4): if cond[l]: arr[l] = ...` loops. -/
def zipWith (f : α → β → γ) (v : Lanes α) (w : Lanes β) : Lanes γ :=
  ⟨f v.l0 w.l0, f v.l1 w.l1, f v.l2 w.l2, f v.l3 w.l3⟩

end Lanes

/-- Annotations put on the pixel-data row (row 18) by `decode_pixel_data`.
Each constructor records the decoded value(s) of one annotation; the
`yuvRemnant` constructor is the `elif i + 1 < len(payload)` fallback branch
of the YUV422 case. -/
inductive PixelAnn where
  | raw8 (v : Nat)
  | raw10 (v : Nat)
  | raw16 (v : Nat)
  | rgb (r g b : Nat)
  | yuv (y c : Nat)
  | yuvRemnant (y c : Nat)
  | generic (v : Nat)
deriving DecidableEq, Repr

/-- RAW10 groups: `for i in range(0, len(payload), 5): if i + 5 <= len(payload)`,
unpacking 4 pixels from every complete 5-byte group. -/
def raw10Groups : List Nat → List PixelAnn
  | b0 :: b1 :: b2 :: b3 :: b4 :: rest =>
      PixelAnn.raw10 ((b0 <<< 2) ||| ((b4 >>> 6) &&& 0x03)) ::
      PixelAnn.raw10 ((b1 <<< 2) ||| ((b4 >>> 4) &&& 0x03)) ::
      PixelAnn.raw10 ((b2 <<< 2) ||| ((b4 >>> 2) &&& 0x03)) ::
      PixelAnn.raw10 ((b3 <<< 2) ||| (b4 &&& 0x03)) ::
      raw10Groups rest
  | _ => []

/-- RAW16 groups: `for i in range(0, len(payload), 2): if i + 1 < len(payload)`,
little-endian 16-bit pixel per complete pair. -/
def raw16Groups : List Nat → List PixelAnn
  | a :: b :: rest => PixelAnn.raw16 (a ||| (b <<< 8)) :: raw16Groups rest
  | _ => []

/-- RGB888 groups: `for i in range(0, len(payload), 3): if i + 2 < len(payload)`. -/
def rgb888Groups : List Nat → List PixelAnn
  | r :: g :: b :: rest => PixelAnn.rgb r g b :: rgb888Groups rest
  | _ => []

/-- YUV422 groups: `for i in range(0, len(payload), 4)`; a complete group emits
two annotations (`Y0/U`, `Y1/V`); a trailing remnant of 2 or 3 bytes falls into
the `elif i + 1 < len(payload)` branch and emits one annotation from its first
two bytes (the third byte, if present, is dropped). -/
def yuv422Groups : List Nat → List PixelAnn
  | y0 :: u :: y1 :: v :: rest =>
      PixelAnn.yuv y0 u :: PixelAnn.yuv y1 v :: yuv422Groups rest
  | y :: uv :: _ => [PixelAnn.yuvRemnant y uv]
  | _ => []

/-- `decode_pixel_data` of `pd.py` restricted to the decoded values it puts on
the pixel-data annotation row (timestamps only position the annotations and
are not modelled).  Data-type dispatch and group handling are literal:
RAW8 = 0x2A, RAW10 = 0x2B, RAW16 = 0x2E, RGB888 = 0x24, YUV422_8BIT = 0x1E,
anything else is a generic per-byte hex dump. -/
def decode_pixel_data (dataType : Nat) (payload : List Nat) : List PixelAnn :=
  if payload.length < 1 then []
  else if dataType = 0x2A then payload.map PixelAnn.raw8
  else if dataType = 0x2B then raw10Groups payload
  else if dataType = 0x2E then raw16Groups payload
  else if dataType = 0x24 then rgb888Groups payload
  else if dataType = 0x1E then yuv422Groups payload
  else payload.map PixelAnn.generic

/-- The synchronization marker `SYNC_MARKER = 0xB8`. -/
def SYNC_MARKER : Nat := 0xB8

/-- The mutable decoder state: the per-lane arrays and packet-level fields of
the python `Decoder` object that participate in the decode path.  The lazily
initialized classifier arrays (`lane_prev_state`, `lane_in_ths_settle`,
`lane_was_lp00`) are included with their first-use initial values. -/
structure DecState where
  lanePrevState : Lanes LaneState
  laneInThsSettle : Lanes Bool
  laneWasLp00 : Lanes Bool
  laneSyncDetected : Lanes Bool
  laneStates : Lanes LaneState
  bitShifters : Lanes Nat
  bitCounters : Lanes Nat
  syncDetected : Lanes Bool
  byteSynchronized : Lanes Bool
  packetState : PacketState
  packetBuffer : List Nat
  expectedPacketLength : Nat
  packetEndDetected : Lanes Bool
  detectedLanes : Nat
  laneTransitionCount : Lanes Nat
  laneActivityStart : Lanes (Option Nat)
  laneDetectionActive : Bool
deriving DecidableEq, Repr

/-- The state produced by `reset()` (plus the lazily initialized classifier
arrays at their first-use values). -/
def resetState : DecState where
  lanePrevState := Lanes.const .lp11
  laneInThsSettle := Lanes.const false
  laneWasLp00 := Lanes.const false
  laneSyncDetected := Lanes.const false
  laneStates := Lanes.const .lp11
  bitShifters := Lanes.const 0
  bitCounters := Lanes.const 0
  syncDetected := Lanes.const false
  byteSynchronized := Lanes.const false
  packetState := .idle
  packetBuffer := []
  expectedPacketLength := 0
  packetEndDetected := Lanes.const false
  detectedLanes := 0
  laneTransitionCount := Lanes.const 0
  laneActivityStart := Lanes.const none
  laneDetectionActive := true

/-- Map a differential pair to a physical low-power sub-state
(`detect_lane_state` lines: `(1,1) -> LP11, (0,1) -> LP01, (0,0) -> LP00,
(1,0) -> LP10`; the defensive `else` default is unreachable for booleans). -/
def physicalState (p n : Bool) : LaneState :=
  if p && n then .lp11
  else if !p && n then .lp01
  else if !p && !n then .lp00
  else .lp10

/-- `detect_lane_state(lane, data_p, data_n)`: classify one sample into a lane
state, updating the classifier's per-lane tracking arrays.  Structured as in
the source: the early `LP-11` return, the `wasInLp00` tracking (whose
`elif physical_state == LP_11` arm is unreachable past the early return),
the `ThsSettle` entry and hold, the `HS`/`HS-TRAIL` holds, and the default
follow-the-physical-state branch. -/
def detect_lane_state (lane : Fin 4) (p n : Bool) (s : DecState) :
    DecState × LaneState :=
  let prevState := s.lanePrevState.get lane
  let phys := physicalState p n
  if phys = .lp11 then
    ({ s with laneInThsSettle := s.laneInThsSettle.set lane false,
              laneSyncDetected := s.laneSyncDetected.set lane false,
              lanePrevState := s.lanePrevState.set lane .lp11 }, .lp11)
  else
    let s1 := if phys = .lp00 then
                { s with laneWasLp00 := s.laneWasLp00.set lane true }
              else s
    if prevState = .lp00 ∧ phys ≠ .lp00 ∧ s1.laneWasLp00.get lane then
      ({ s1 with laneInThsSettle := s1.laneInThsSettle.set lane true,
                 laneWasLp00 := s1.laneWasLp00.set lane false,
                 lanePrevState := s1.lanePrevState.set lane .thsSettle },
       .thsSettle)
    else if s1.laneInThsSettle.get lane then
      if s1.laneSyncDetected.get lane then
        ({ s1 with laneInThsSettle := s1.laneInThsSettle.set lane false,
                   lanePrevState := s1.lanePrevState.set lane .hs }, .hs)
      else
        (s1, .thsSettle)
    else if prevState = .hs then
      if s1.packetEndDetected.get lane then
        ({ s1 with packetEndDetected := s1.packetEndDetected.set lane false,
                   lanePrevState := s1.lanePrevState.set lane .hsTrail },
         .hsTrail)
      else
        (s1, .hs)
    else if prevState = .hsTrail then
      (s1, .hsTrail)
    else
      ({ s1 with lanePrevState := s1.lanePrevState.set lane phys }, phys)

/-- The lane-activity predicate of `detect_active_lanes`: enough transitions,
a recorded activity start, sustained duration, and (for lanes other than 0)
the secondary transition threshold. -/
def laneActive (samplenum : Nat) (s : DecState) (lane : Fin 4) : Bool :=
  10 ≤ s.laneTransitionCount.get lane &&
  (match s.laneActivityStart.get lane with
   | some start => (5000 : Int) ≤ (samplenum : Int) - (start : Int)
   | none => false) &&
  (lane.val == 0 || 20 ≤ s.laneTransitionCount.get lane)

/-- The active-lane count computed by `detect_active_lanes`. -/
def activeLaneCount (samplenum : Nat) (s : DecState) : Nat :=
  (List.finRange 4).countP (laneActive samplenum s)

/-- `detect_active_lanes()`: recompute the active-lane count and emit a
`LANE_COUNT` event exactly when it differs from the previously reported
count. -/
def detect_active_lanes (samplenum : Nat) (s : DecState) :
    DecState × List Event :=
  let n := activeLaneCount samplenum s
  if n ≠ s.detectedLanes then
    ({ s with detectedLanes := n }, [Event.laneCount n])
  else
    (s, [])

/-- `update_lane_state(lane, new_state, ss)`: record a state change, emit the
`LANE_STATE` event, count transitions into high-speed states and trigger lane
detection at the threshold. -/
def update_lane_state (lane : Fin 4) (newState : LaneState) (ss : Nat)
    (s : DecState) : DecState × List Event :=
  if s.laneStates.get lane ≠ newState then
    let s1 := { s with laneStates := s.laneStates.set lane newState }
    let evs := [Event.laneStateEv lane.val newState]
    if newState = .hs ∨ newState = .hsSync then
      let s2 := { s1 with laneTransitionCount :=
        s1.laneTransitionCount.set lane (s1.laneTransitionCount.get lane + 1) }
      let s3 := if (s2.laneActivityStart.get lane).isNone then
                  { s2 with laneActivityStart :=
                      s2.laneActivityStart.set lane (some ss) }
                else s2
      if s3.laneDetectionActive ∧ 10 ≤ s3.laneTransitionCount.get lane then
        let r := detect_active_lanes ss s3
        (r.1, evs ++ r.2)
      else
        (s3, evs)
    else
      (s1, evs)
  else
    (s, [])

/-- `decode_short_packet(ss, header)`: the structured `SHORT_PACKET` event,
decoding virtual channel and data type from the formatted header and the
16-bit little-endian data field from its last two bytes. -/
def decode_short_packet (header : List Nat) : List Event :=
  if header.length < 4 then []
  else
    let vcdt := header.getD 1 0
    let virtualChannel := (vcdt >>> 6) &&& 0x03
    let dataType := vcdt &&& 0x3F
    let dataField := ((header.getD 3 0) <<< 8) ||| (header.getD 2 0)
    [Event.shortPacket dataType virtualChannel dataField]

/-- `decode_long_packet(ss, header, payload, checksum)`: the structured
`LONG_PACKET` event (data type, virtual channel 0, word count from header
bytes 1-2 little-endian, payload) followed by the `FOOTER` event when the
checksum is non-empty. -/
def decode_long_packet (header payload checksum : List Nat) : List Event :=
  let dataType := header.getD 0 0
  let wordCount := ((header.getD 2 0) <<< 8) ||| (header.getD 1 0)
  Event.longPacket dataType 0 wordCount payload ::
    (if checksum ≠ [] then [Event.footer checksum] else [])

/-- `analyze_packet_header(ss)`: classify the 4-byte header at the front of
the packet buffer.  Returns the python return value (`word_count`, the
expected total packet length) together with the events dispatched while
analyzing (the immediate short-packet dispatch). -/
def analyze_packet_header (s : DecState) : Nat × List Event :=
  if s.packetBuffer.length < 4 then (0, [])
  else
    let header := s.packetBuffer.take 4
    let dataId := header.getD 0 0
    let dataType := dataId
    let dataField := ((header.getD 2 0) <<< 8) ||| (header.getD 1 0)
    if dataType ≤ 0x0F then
      let formattedHeader :=
        [dataId, (0 <<< 6) ||| dataType, header.getD 1 0, header.getD 2 0]
      (4, decode_short_packet formattedHeader)
    else
      (4 + dataField + 2, [])

/-- `process_complete_packet(ss)`: split a completed long packet into header,
payload and checksum and dispatch it; short packets were already dispatched
by the header analysis.  Clears the buffer and moves the packet state to
`SYNC_DETECTED`. -/
def process_complete_packet (s : DecState) : DecState × List Event :=
  let evs :=
    if 4 ≤ s.packetBuffer.length then
      let header := s.packetBuffer.take 4
      let dataType := header.getD 0 0
      if dataType ≤ 0x0F then []
      else
        let wordCount := ((header.getD 2 0) <<< 8) ||| (header.getD 1 0)
        if 4 + wordCount + 2 ≤ s.packetBuffer.length then
          let payload := (s.packetBuffer.drop 4).take wordCount
          let checksum := (s.packetBuffer.drop (4 + wordCount)).take 2
          decode_long_packet header payload checksum
        else []
    else []
  ({ s with packetBuffer := [], packetState := .syncDetected }, evs)

/-- `process_packet_byte(lane, byte_value, ss)`: append a deserialized byte to
the (single, shared) packet buffer, analyze the header at 4 bytes, and on
reaching the expected length complete the packet: emit `PACKET_COMPLETE`,
mark packet end and clear `sync_detected` on every byte-synchronized lane,
and reset buffer and expected length.  The `lane` argument is used only in
debug prints in the source and does not influence the computation. -/
def process_packet_byte (lane : Fin 4) (byteValue : Nat) (s : DecState) :
    DecState × List Event :=
  if s.packetState = .collectingPacket then
    let s1 := { s with packetBuffer := s.packetBuffer ++ [byteValue] }
    let a := analyze_packet_header s1
    let s2 := if s1.packetBuffer.length = 4 then
                { s1 with expectedPacketLength := a.1 }
              else s1
    let evs1 := if s1.packetBuffer.length = 4 then a.2 else []
    if 0 < s2.expectedPacketLength ∧
        s2.expectedPacketLength ≤ s2.packetBuffer.length then
      let c := process_complete_packet s2
      let s3 := { c.1 with
        packetState := .idle,
        packetEndDetected :=
          Lanes.zipWith (fun (bs old : Bool) => if bs then true else old)
            c.1.byteSynchronized c.1.packetEndDetected }
      let s4 := { s3 with
        packetBuffer := [],
        expectedPacketLength := 0,
        syncDetected :=
          Lanes.zipWith (fun (bs old : Bool) => if bs then false else old)
            s3.byteSynchronized s3.syncDetected }
      (s4, evs1 ++ c.2 ++ [Event.packetComplete])
    else
      (s2, evs1)
  else
    (s, [])

/-- One step of the LSB-first shift register:
`bit_shifters[lane] = (bit_shifters[lane] >> 1) | (bit_value << 7)`. -/
def shiftOp (r : Nat) (b : Bool) : Nat := (r >>> 1) ||| ((cond b 1 0) <<< 7)

/-- The state mutations performed when the synchronization marker is matched
inside `shift_bits`: set the sync flags, reset the bit counter, and start
collecting a fresh packet. -/
def applySyncActions (lane : Fin 4) (s : DecState) : DecState :=
  { s with syncDetected := s.syncDetected.set lane true,
           laneSyncDetected := s.laneSyncDetected.set lane true,
           byteSynchronized := s.byteSynchronized.set lane true,
           bitCounters := s.bitCounters.set lane 0,
           packetState := .collectingPacket,
           packetBuffer := [] }

/-- `shift_bits(lane, bit_value, ss)`: shift one bit into the lane's register
and bump its counter; before synchronization the register is compared against
the sync marker after every bit (sliding window); after synchronization every
8th bit completes a byte, resets register and counter, and hands the byte to
`process_packet_byte`.  The trailing marker comparison also runs when packet
completion just cleared `sync_detected` (the completed byte can immediately
re-synchronize). -/
def shift_bits (lane : Fin 4) (bit : Bool) (s : DecState) :
    DecState × List Event :=
  let s1 := { s with
    bitShifters := s.bitShifters.set lane (shiftOp (s.bitShifters.get lane) bit),
    bitCounters := s.bitCounters.set lane (s.bitCounters.get lane + 1) }
  let step :
      DecState × Option Nat × List Event :=
    if ¬ s1.syncDetected.get lane then
      (s1, some (s1.bitShifters.get lane &&& 0xFF), [])
    else if 8 ≤ s1.bitCounters.get lane then
      let bv := s1.bitShifters.get lane &&& 0xFF
      let s2 := { s1 with bitShifters := s1.bitShifters.set lane 0,
                          bitCounters := s1.bitCounters.set lane 0 }
      let r := process_packet_byte lane bv s2
      (r.1, some bv, r.2)
    else
      (s1, none, [])
  let s3 := step.1
  let evs := step.2.2
  if ¬ s3.syncDetected.get lane then
    match step.2.1 with
    | some bv =>
        if bv = SYNC_MARKER then
          (applySyncActions lane s3, evs ++ [Event.syncEv lane.val])
        else
          (s3, evs)
    | none => (s3, evs)
  else
    (s3, evs)

/-- One iteration of the per-lane part of the `decode()` loop for one lane:
classify the sample, record the state change, and shift a bit while the lane
is in `HS` or `THS-SETTLE` (`bit_value = 1 if data_p > data_n else 0`). -/
def laneStep (lane : Fin 4) (p n : Bool) (ss : Nat) (s : DecState) :
    DecState × List Event :=
  let d := detect_lane_state lane p n s
  let u := update_lane_state lane d.2 ss d.1
  if d.2 = .hs ∨ d.2 = .thsSettle then
    let r := shift_bits lane (p && !n) u.1
    (r.1, u.2 ++ r.2)
  else
    u

/-- Feed a list of samples `(p, n)` for one lane through the decode loop,
numbering samples from `ss0`. -/
def runLane (lane : Fin 4) (samples : List (Bool × Bool)) (ss0 : Nat)
    (s : DecState) : DecState × List Event :=
  match samples with
  | [] => (s, [])
  | pr :: rest =>
      let r := laneStep lane pr.1 pr.2 ss0 s
      let r' := runLane lane rest (ss0 + 1) r.1
      (r'.1, r.2 ++ r'.2)

/-- Feed a list of bits through `shift_bits` for one lane. -/
def feedBits (lane : Fin 4) (bits : List Bool) (s : DecState) :
    DecState × List Event :=
  match bits with
  | [] => (s, [])
  | b :: rest =>
      let r := shift_bits lane b s
      let r' := feedBits lane rest r.1
      (r'.1, r.2 ++ r'.2)

/-- Feed a list of assembled bytes through `process_packet_byte` for one
lane. -/
def feedBytes (lane : Fin 4) (bytes : List Nat) (s : DecState) :
    DecState × List Event :=
  match bytes with
  | [] => (s, [])
  | b :: rest =>
      let r := process_packet_byte lane b s
      let r' := feedBytes lane rest r.1
      (r'.1, r.2 ++ r'.2)

/-- Run the classifier alone over a list of samples for one lane, collecting
the returned lane states. -/
def classifyRun (lane : Fin 4) (samples : List (Bool × Bool)) (s : DecState) :
    DecState × List LaneState :=
  match samples with
  | [] => (s, [])
  | pr :: rest =>
      let r := detect_lane_state lane pr.1 pr.2 s
      let r' := classifyRun lane rest r.1
      (r'.1, r.2 :: r'.2)

/-- Iterate `detect_active_lanes` at a fixed sample number with unchanged
counters. -/
def iterDetect : Nat → Nat → DecState → DecState × List Event
  | 0, _, s => (s, [])
  | m + 1, t, s =>
      let r := detect_active_lanes t s
      let r' := iterDetect m t r.1
      (r'.1, r.2 ++ r'.2)

/-- `decode_error(ss, es, error_msg)`: the protocol-error event.  Defined in
the source but never invoked from the decode path. -/
def decode_error (msg : String) : List Event := [Event.errorEv msg]

/-- The bits of one byte, LSB first, as shifted on the wire. -/
def bitsOfByte (b : Nat) : List Bool :=
  [b.testBit 0, b.testBit 1, b.testBit 2, b.testBit 3,
   b.testBit 4, b.testBit 5, b.testBit 6, b.testBit 7]

/-- The LSB-first value of a bit list. -/
def lsbVal : List Bool → Nat
  | [] => 0
  | b :: bs => (cond b 1 0) + 2 * lsbVal bs

/-- The shift-register contents after shifting `bits` into an initial register
value `r0`: the sliding 8-bit window over the shifted stream. -/
def windowAfter (r0 : Nat) (bits : List Bool) : Nat := bits.foldl shiftOp r0

/-- The decoder state right after the synchronization byte `0xB8` was shifted
LSB-first into lane 0 of a freshly reset decoder. -/
def postSyncState : DecState := (feedBits 0 (bitsOfByte 0xB8) resetState).1

/-- A sample `(p, n)` pair carrying one high-speed bit: `1` is `(1, 0)` and
`0` is `(0, 1)`. -/
def bitSample (b : Bool) : Bool × Bool := (b, !b)

/-- Sample trace for lane 0: enter `LP-00`, shift the sync byte while in
`THS-SETTLE`, shift three more high-speed `1` bits, then return to `LP-11`.
Ends with a partially formed byte in the shift register. -/
def c4trace : List (Bool × Bool) :=
  (false, false) :: ((bitsOfByte 0xB8).map bitSample ++
    [(true, false), (true, false), (true, false), (true, true)])

/-- Sample trace for lane 0: enter `LP-00`, shift the sync byte, shift the two
header bytes `0x2A 0x00`, then return to `LP-11` with only 2 of 4 header bytes
collected. -/
def c8trace : List (Bool × Bool) :=
  (false, false) :: ((bitsOfByte 0xB8).map bitSample ++
    (bitsOfByte 0x2A).map bitSample ++ (bitsOfByte 0x00).map bitSample ++
    [(true, true)])

/-- A decoder state in which lanes 0 and 1 are both byte-synchronized and a
short packet lacks only its final header byte. -/
def sharedAsmState : DecState :=
  { resetState with
      packetState := .collectingPacket,
      packetBuffer := [0x00, 0x05, 0x00],
      byteSynchronized := Lanes.const true,
      syncDetected := Lanes.const true }

/-- A decoder state whose lane-0 `wasInLp00` flag is set. -/
def wasLp00State : DecState :=
  { resetState with laneWasLp00 := (Lanes.const false).set 0 true }

/-- The decoder state reached by `c8trace` just before its final `LP-11`
sample: lane 0 synchronized and collecting, with 2 of 4 header bytes in the
buffer. -/
def c8state : DecState := (runLane 0 c8trace.dropLast 0 resetState).1

/-! ## Helper lemmas -/

@[simp] theorem Lanes.get_set_self (v : Lanes α) (i : Fin 4) (a : α) :
    (v.set i a).get i = a := by
  rcases v with ⟨a0, a1, a2, a3⟩
  fin_cases i <;> rfl

theorem Lanes.get_set_ne (v : Lanes α) (i j : Fin 4) (a : α) (h : i ≠ j) :
    (v.set i a).get j = v.get j := by
  rcases v with ⟨a0, a1, a2, a3⟩
  fin_cases i <;> fin_cases j <;> first
    | rfl
    | exact absurd rfl h

@[simp] theorem Lanes.set_get_self (v : Lanes α) (i : Fin 4) :
    v.set i (v.get i) = v := by
  rcases v with ⟨a0, a1, a2, a3⟩
  fin_cases i <;> rfl

@[simp] theorem Lanes.get_const (a : α) (i : Fin 4) : (Lanes.const a).get i = a := by
  fin_cases i <;> rfl

@[simp] theorem Lanes.get_zipWith (f : α → β → γ) (v : Lanes α) (w : Lanes β)
    (i : Fin 4) :
    (Lanes.zipWith f v w).get i = f (v.get i) (w.get i) := by
  rcases v with ⟨a0, a1, a2, a3⟩
  rcases w with ⟨b0, b1, b2, b3⟩
  fin_cases i <;> rfl

@[simp] theorem Lanes.set_set (v : Lanes α) (i : Fin 4) (a b : α) :
    (v.set i a).set i b = v.set i b := by
  rcases v with ⟨a0, a1, a2, a3⟩
  fin_cases i <;> rfl

theorem raw16Groups_length (l : List Nat) :
    (raw16Groups l).length = l.length / 2 := by
  induction l using raw16Groups.induct with
  | case1 a b rest ih => simp [raw16Groups, ih]; omega
  | case2 l h =>
    cases l with
    | nil => simp [raw16Groups]
    | cons a t =>
      cases t with
      | nil => simp [raw16Groups]
      | cons b t' => exact absurd rfl (h a b t')

theorem raw10Groups_length (l : List Nat) :
    (raw10Groups l).length = 4 * (l.length / 5) := by
  induction l using raw10Groups.induct with
  | case1 b0 b1 b2 b3 b4 rest ih => simp [raw10Groups, ih]; omega
  | case2 l h =>
    have hlt : l.length < 5 := by
      by_contra hge
      push_neg at hge
      match l, hge with
      | b0 :: b1 :: b2 :: b3 :: b4 :: rest, _ =>
        exact absurd rfl (h b0 b1 b2 b3 b4 rest)
    have h0 : l.length / 5 = 0 := Nat.div_eq_of_lt hlt
    have hz : raw10Groups l = [] := by
      match l, hlt with
      | [], _ => rfl
      | [a], _ => rfl
      | [a, b], _ => rfl
      | [a, b, c], _ => rfl
      | [a, b, c, d], _ => rfl
    simp [hz, h0]

theorem rgb888Groups_length (l : List Nat) :
    (rgb888Groups l).length = l.length / 3 := by
  induction l using rgb888Groups.induct with
  | case1 r g b rest ih => simp [rgb888Groups, ih]; omega
  | case2 l h =>
    have hlt : l.length < 3 := by
      by_contra hge
      push_neg at hge
      match l, hge with
      | r :: g :: b :: rest, _ => exact absurd rfl (h r g b rest)
    have hz : rgb888Groups l = [] := by
      match l, hlt with
      | [], _ => rfl
      | [a], _ => rfl
      | [a, b], _ => rfl
    simp [hz, Nat.div_eq_of_lt hlt]

theorem yuv422Groups_length (l : List Nat) :
    (yuv422Groups l).length =
      2 * (l.length / 4) + (if 2 ≤ l.length % 4 then 1 else 0) := by
  induction l using yuv422Groups.induct with
  | case1 y0 u y1 v rest ih =>
    simp only [yuv422Groups, List.length_cons, ih]
    split_ifs <;> omega
  | case2 y uv t h =>
    have hlt : t.length < 2 := by
      by_contra hge
      push_neg at hge
      match t, hge with
      | y1 :: v :: rest, _ => exact absurd rfl (h y1 v rest)
    match t, hlt with
    | [], _ => simp [yuv422Groups]
    | [a], _ => simp [yuv422Groups]
  | case3 l h1 h2 =>
    have hlt : l.length < 2 := by
      by_contra hge
      push_neg at hge
      match l, hge with
      | a :: b :: t, _ => exact absurd rfl (h2 a b t)
    match l, hlt with
    | [], _ => simp [yuv422Groups]
    | [a], _ => simp [yuv422Groups]

theorem activeLaneCount_detected (t n : Nat) (s : DecState) :
    activeLaneCount t { s with detectedLanes := n } = activeLaneCount t s := rfl

/-- C6: for the RAW10 packed format, each complete 5-byte payload group yields
exactly 4 samples with sample `k` equal to
`(byte[k] <<< 2) ||| ((byte[4] >>> (6 - 2k)) &&& 0x03)`; in particular the
group `[0xFF, 0xFF, 0xFF, 0xFF, 0x00]` decodes to four samples of `0x3FC`. -/
theorem C6_raw10_unpack :
    (∀ b0 b1 b2 b3 b4 : Nat, ∀ rest : List Nat,
      decode_pixel_data 0x2B (b0 :: b1 :: b2 :: b3 :: b4 :: rest) =
        PixelAnn.raw10 ((b0 <<< 2) ||| ((b4 >>> (6 - 2 * 0)) &&& 0x03)) ::
        PixelAnn.raw10 ((b1 <<< 2) ||| ((b4 >>> (6 - 2 * 1)) &&& 0x03)) ::
        PixelAnn.raw10 ((b2 <<< 2) ||| ((b4 >>> (6 - 2 * 2)) &&& 0x03)) ::
        PixelAnn.raw10 ((b3 <<< 2) ||| ((b4 >>> (6 - 2 * 3)) &&& 0x03)) ::
        raw10Groups rest) ∧
    decode_pixel_data 0x2B [0xFF, 0xFF, 0xFF, 0xFF, 0x00] =
      [PixelAnn.raw10 0x3FC, PixelAnn.raw10 0x3FC,
       PixelAnn.raw10 0x3FC, PixelAnn.raw10 0x3FC] := by
  constructor
  · intro b0 b1 b2 b3 b4 rest
    simp [decode_pixel_data, raw10Groups]
  · rfl

/-- C7 counterexample: the claim says a payload shorter than one group emits
nothing, but the YUV422 format (group size 4) given the 2-byte payload
`[0x10, 0x20]` emits one (partial) sample even though it contains zero
complete groups. -/
theorem C7_cex_yuv422_partial_emission :
    decode_pixel_data 0x1E [0x10, 0x20] = [PixelAnn.yuvRemnant 0x10 0x20] ∧
    2 * (([0x10, 0x20] : List Nat).length / 4) = 0 :=
  ⟨rfl, rfl⟩

/-- C7 (amended): the complete-groups-only rule holds for the RAW8, RAW10,
RAW16, RGB888 and generic formats — a payload of length `L` with group size
`g` yields exactly `L / g` groups' worth of samples — but the YUV422 format
additionally emits one fallback sample whenever the trailing remainder is 2
or 3 bytes. -/
theorem C7_group_counts :
    (∀ p : List Nat, (decode_pixel_data 0x2A p).length = p.length) ∧
    (∀ p : List Nat, (decode_pixel_data 0x2B p).length = 4 * (p.length / 5)) ∧
    (∀ p : List Nat, (decode_pixel_data 0x2E p).length = p.length / 2) ∧
    (∀ p : List Nat, (decode_pixel_data 0x24 p).length = p.length / 3) ∧
    (∀ p : List Nat, (decode_pixel_data 0x1E p).length =
        2 * (p.length / 4) + (if 2 ≤ p.length % 4 then 1 else 0)) ∧
    (∀ dt : Nat, ∀ p : List Nat,
      dt ≠ 0x2A → dt ≠ 0x2B → dt ≠ 0x2E → dt ≠ 0x24 → dt ≠ 0x1E →
      (decode_pixel_data dt p).length = p.length) := by
  refine ⟨?_, ?_, ?_, ?_, ?_, ?_⟩
  · intro p
    cases p with
    | nil => rfl
    | cons a t => simp [decode_pixel_data]
  · intro p
    cases p with
    | nil => rfl
    | cons a t => simp [decode_pixel_data, raw10Groups_length]
  · intro p
    cases p with
    | nil => rfl
    | cons a t => simp [decode_pixel_data, raw16Groups_length]
  · intro p
    cases p with
    | nil => rfl
    | cons a t => simp [decode_pixel_data, rgb888Groups_length]
  · intro p
    cases p with
    | nil => rfl
    | cons a t => simp [decode_pixel_data, yuv422Groups_length]
  · intro dt p h1 h2 h3 h4 h5
    cases p with
    | nil => rfl
    | cons a t => simp [decode_pixel_data, h1, h2, h3, h4, h5]

/-- C5 counterexample: the claim says processing a byte arriving on lane `i`
never modifies packet-assembly state attributed to lane `j ≠ i`, but
completing the shared buffer with a byte on lane 0 clears lane 1's
`sync_detected` and sets lane 1's `packet_end_detected`. -/
theorem C5_cex_cross_lane_mutation :
    sharedAsmState.syncDetected.get 1 = true ∧
    (process_packet_byte 0 0x1C sharedAsmState).1.syncDetected.get 1 = false ∧
    (process_packet_byte 0 0x1C sharedAsmState).1.packetEndDetected.get 1 = true :=
  ⟨rfl, rfl, rfl⟩

/-- C5 (amended): packet assembly is link-wide, not per-lane — there is one
shared buffer, collection state and expected length, and processing a byte
yields exactly the same result whichever lane it arrived on (the lane
argument only feeds debug prints in the source). -/
theorem C5_assembly_lane_independent :
    ∀ (l1 l2 : Fin 4) (b : Nat) (s : DecState),
      process_packet_byte l1 b s = process_packet_byte l2 b s :=
  fun _ _ _ _ => rfl

/-- C9: the lane-count estimator is idempotent in its output — iterating the
recomputation any number of times with unchanged per-lane counters emits a
`LANE_COUNT` event exactly once if the newly computed count differs from the
previously reported one (and then never again), and no event otherwise. -/
theorem C9_lane_count_idempotent (m t : Nat) (s : DecState) :
    (iterDetect m t s).2 =
      if 1 ≤ m ∧ activeLaneCount t s ≠ s.detectedLanes
      then [Event.laneCount (activeLaneCount t s)] else [] := by
  induction m generalizing s with
  | zero => simp [iterDetect]
  | succ m ih =>
    by_cases h : activeLaneCount t s = s.detectedLanes
    · simp [iterDetect, detect_active_lanes, h, ih]
    · simp [iterDetect, detect_active_lanes, h, ih, activeLaneCount_detected]

theorem detect_lane_state_lp11 (lane : Fin 4) (s : DecState) :
    detect_lane_state lane true true s =
      ({ s with laneInThsSettle := s.laneInThsSettle.set lane false,
                laneSyncDetected := s.laneSyncDetected.set lane false,
                lanePrevState := s.lanePrevState.set lane .lp11 }, .lp11) := by
  simp [detect_lane_state, physicalState]

theorem physicalState_ne_settle (p n : Bool) :
    physicalState p n ≠ .thsSettle := by
  revert p n
  decide

theorem detect_step_guard (lane : Fin 4) (p n : Bool) (s : DecState)
    (hin : s.laneInThsSettle.get lane = false)
    (hprev : s.lanePrevState.get lane ≠ .lp00)
    (hphys : physicalState p n ≠ .lp00) :
    (detect_lane_state lane p n s).2 ≠ .thsSettle ∧
    (detect_lane_state lane p n s).1.laneInThsSettle.get lane = false ∧
    (detect_lane_state lane p n s).1.lanePrevState.get lane ≠ .lp00 := by
  unfold detect_lane_state
  simp only []
  split_ifs <;> simp_all [physicalState_ne_settle]

theorem classifyRun_no_settle (lane : Fin 4) (samples : List (Bool × Bool))
    (s : DecState)
    (hin : s.laneInThsSettle.get lane = false)
    (hprev : s.lanePrevState.get lane ≠ .lp00)
    (hall : ∀ pr ∈ samples, physicalState pr.1 pr.2 ≠ .lp00) :
    LaneState.thsSettle ∉ (classifyRun lane samples s).2 := by
  induction samples generalizing s with
  | nil => simp [classifyRun]
  | cons pr rest ih =>
    obtain ⟨h1, h2, h3⟩ :=
      detect_step_guard lane pr.1 pr.2 s hin hprev (hall pr (by simp))
    intro hmem
    simp only [classifyRun, List.mem_cons] at hmem
    rcases hmem with hh | ht
    · exact h1 hh.symm
    · exact ih (detect_lane_state lane pr.1 pr.2 s).1 h2 h3
        (fun q hq => hall q (List.mem_cons_of_mem pr hq)) ht

theorem update_lane_state_fields (lane : Fin 4) (st : LaneState) (ss : Nat)
    (s : DecState) :
    (update_lane_state lane st ss s).1.laneStates.get lane = st ∧
    (update_lane_state lane st ss s).1.laneSyncDetected = s.laneSyncDetected ∧
    (update_lane_state lane st ss s).1.bitShifters = s.bitShifters ∧
    (update_lane_state lane st ss s).1.bitCounters = s.bitCounters ∧
    (update_lane_state lane st ss s).1.syncDetected = s.syncDetected ∧
    (update_lane_state lane st ss s).1.packetBuffer = s.packetBuffer ∧
    (update_lane_state lane st ss s).1.packetState = s.packetState ∧
    (∀ e ∈ (update_lane_state lane st ss s).2, e.isError = false) := by
  unfold update_lane_state detect_active_lanes
  simp only []
  split_ifs <;> simp_all [Event.isError]

/-- C3 counterexample: on a physical `(1,1)` reading the classifier does not
clear the lane's `wasInLp00` flag (the clearing branch in the source sits
behind an early return and is unreachable), contradicting the claimed
clearing of all three flags. -/
theorem C3_cex_wasLp00_survives_lp11 :
    wasLp00State.laneWasLp00.get 0 = true ∧
    (detect_lane_state 0 true true wasLp00State).2 = .lp11 ∧
    (detect_lane_state 0 true true wasLp00State).1.laneWasLp00.get 0 = true :=
  ⟨rfl, rfl, rfl⟩

/-- C3 (amended): a physical `(1,1)` reading unconditionally moves the lane to
`LP-11` and clears its `syncDetected` and settle flags, but leaves
`wasInLp00` unchanged; nevertheless a lane that went straight from `LP-00` to
`LP-11` cannot enter `ThsSettle` without a fresh physical `LP-00` sample,
because entering `ThsSettle` requires the previous classified state to be
`LP-00`. -/
theorem C3_lp11_reset_and_settle_guard :
    (∀ (s : DecState) (lane : Fin 4),
      (detect_lane_state lane true true s).2 = .lp11 ∧
      (detect_lane_state lane true true s).1.laneInThsSettle.get lane = false ∧
      (detect_lane_state lane true true s).1.laneSyncDetected.get lane = false ∧
      (detect_lane_state lane true true s).1.laneWasLp00 = s.laneWasLp00) ∧
    (∀ (s : DecState) (lane : Fin 4) (samples : List (Bool × Bool)),
      s.laneInThsSettle.get lane = false →
      s.lanePrevState.get lane ≠ .lp00 →
      (∀ pr ∈ samples, physicalState pr.1 pr.2 ≠ .lp00) →
      LaneState.thsSettle ∉ (classifyRun lane samples s).2) := by
  constructor
  · intro s lane
    rw [detect_lane_state_lp11]
    simp
  · intro s lane samples hin hprev hall
    exact classifyRun_no_settle lane samples s hin hprev hall

/-- C3 witness: the lane-0 `(1,1)` step of a fresh decoder classifies `LP-11`,
and a bounce `LP-00 → LP-11` followed by non-`LP-00` samples never enters
`ThsSettle`. -/
theorem C3_witness :
    (detect_lane_state 0 true true resetState).2 = .lp11 ∧
    LaneState.thsSettle ∉
      (classifyRun 0 [(true, false), (false, true)] resetState).2 :=
  ⟨(C3_lp11_reset_and_settle_guard.1 resetState 0).1,
   C3_lp11_reset_and_settle_guard.2 resetState 0 [(true, false), (false, true)]
     rfl (by decide) (by decide)⟩

/-- C4 counterexample: a reachable trace that synchronizes lane 0, shifts 3
extra bits and returns to `(1,1)`: the lane state is `LP-11` but the
deserializer's `sync_detected` flag is still set and the shift register and
bit counter still hold the partial byte, contradicting the claimed discard. -/
theorem C4_cex_bits_survive_lp11 :
    (runLane 0 c4trace 0 resetState).1.laneStates.get 0 = .lp11 ∧
    (runLane 0 c4trace 0 resetState).1.syncDetected.get 0 = true ∧
    (runLane 0 c4trace 0 resetState).1.bitCounters.get 0 = 3 ∧
    (runLane 0 c4trace 0 resetState).1.bitShifters.get 0 = 0xF7 :=
  ⟨rfl, rfl, rfl, rfl⟩

/-- C4 (amended): after a sample carrying a physical `(1,1)` reading the
lane's state is `LP-11` and the classifier's `lane_sync_detected` flag is
cleared, but the deserializer state — `sync_detected`, shift register and bit
counter — is left completely unchanged, so partially formed bits are carried
into the next high-speed burst. -/
theorem C4_lp11_keeps_deserializer (s : DecState) (lane : Fin 4) (ss : Nat) :
    (laneStep lane true true ss s).1.laneStates.get lane = .lp11 ∧
    (laneStep lane true true ss s).1.laneSyncDetected.get lane = false ∧
    (laneStep lane true true ss s).1.bitShifters = s.bitShifters ∧
    (laneStep lane true true ss s).1.bitCounters = s.bitCounters ∧
    (laneStep lane true true ss s).1.syncDetected = s.syncDetected := by
  obtain ⟨f1, f2, f3, f4, f5, f6, f7, f8⟩ :=
    update_lane_state_fields lane .lp11 ss
      ({ s with laneInThsSettle := s.laneInThsSettle.set lane false,
                laneSyncDetected := s.laneSyncDetected.set lane false,
                lanePrevState := s.lanePrevState.set lane .lp11 })
  simp only [laneStep, detect_lane_state_lp11]
  simp_all

/-- C8 counterexample: a reachable trace that synchronizes lane 0, collects
only 2 of the 4 header bytes, and returns the lane to idle: no `ERROR` event
is emitted and the partial buffer is retained, contradicting the claimed
error report and discard. -/
theorem C8_cex_no_error_no_discard :
    (runLane 0 c8trace 0 resetState).1.packetBuffer = [0x2A, 0x00] ∧
    ((runLane 0 c8trace 0 resetState).2.all (fun e => !e.isError)) = true ∧
    (runLane 0 c8trace 0 resetState).1.laneStates.get 0 = .lp11 :=
  ⟨rfl, rfl, rfl⟩

/-- C8 (amended): when a lane returns to idle with fewer than 4 collected
header bytes, the decoder emits no `ERROR` event and keeps the partial packet
buffer untouched (the `decode_error` helper exists but is never invoked from
the per-sample decode path); the lane simply parks in `LP-11`. -/
theorem C8_idle_keeps_buffer_no_error (s : DecState) (lane : Fin 4) (ss : Nat)
    (hst : s.packetState = .collectingPacket)
    (hlen : s.packetBuffer.length < 4) :
    (laneStep lane true true ss s).1.packetBuffer = s.packetBuffer ∧
    (∀ e ∈ (laneStep lane true true ss s).2, e.isError = false) ∧
    (laneStep lane true true ss s).1.laneStates.get lane = .lp11 := by
  obtain ⟨f1, f2, f3, f4, f5, f6, f7, f8⟩ :=
    update_lane_state_fields lane .lp11 ss
      ({ s with laneInThsSettle := s.laneInThsSettle.set lane false,
                laneSyncDetected := s.laneSyncDetected.set lane false,
                lanePrevState := s.lanePrevState.set lane .lp11 })
  simp only [laneStep, detect_lane_state_lp11]
  simp_all

/-- C8 witness: the concrete mid-header state reached by `c8trace` satisfies
the hypotheses, and the `(1,1)` step keeps its 2-byte buffer and emits no
error. -/
theorem C8_witness :
    (laneStep 0 true true 26 c8state).1.packetBuffer = c8state.packetBuffer ∧
    (∀ e ∈ (laneStep 0 true true 26 c8state).2, e.isError = false) ∧
    (laneStep 0 true true 26 c8state).1.laneStates.get 0 = .lp11 :=
  C8_idle_keeps_buffer_no_error c8state 0 26 (by decide) (by decide)

theorem shiftOp_eq (r : Nat) (b : Bool) (h : r < 256) :
    shiftOp r b = r / 2 + (cond b 1 0) * 128 := by
  have hall : ∀ r, r < 256 → ∀ b, shiftOp r b = r / 2 + (cond b 1 0) * 128 := by
    decide
  exact hall r h b

theorem shiftOp_lt (r : Nat) (b : Bool) (h : r < 256) : shiftOp r b < 256 := by
  have hall : ∀ r, r < 256 → ∀ b, shiftOp r b < 256 := by decide
  exact hall r h b

theorem lsbVal_lt (bs : List Bool) : lsbVal bs < 2 ^ bs.length := by
  induction bs with
  | nil => simp [lsbVal]
  | cons b t ih =>
    have hc : (cond b 1 0) ≤ 1 := by cases b <;> simp
    simp only [lsbVal, List.length_cons, pow_succ]
    omega

theorem foldl_shiftOp (bs : List Bool) (r0 : Nat) (hlen : bs.length ≤ 8)
    (hr : r0 < 256) :
    bs.foldl shiftOp r0 = r0 / 2 ^ bs.length + lsbVal bs * 2 ^ (8 - bs.length) := by
  induction bs generalizing r0 with
  | nil => simp [lsbVal]
  | cons b t ih =>
    have hlen7 : t.length ≤ 7 := by
      simp only [List.length_cons] at hlen
      omega
    have h1 : shiftOp r0 b = r0 / 2 + (cond b 1 0) * 128 := shiftOp_eq _ _ hr
    have h2 : shiftOp r0 b < 256 := shiftOp_lt _ _ hr
    rw [List.foldl_cons, ih _ (by omega) h2, h1]
    have hp : (0 : Nat) < 2 ^ t.length := Nat.two_pow_pos t.length
    have hsum : (7 - t.length) + t.length = 7 := by omega
    have h128 : (cond b 1 0) * 128 =
        (cond b 1 0) * 2 ^ (7 - t.length) * 2 ^ t.length := by
      rw [mul_assoc, ← pow_add, hsum]
      norm_num
    have e1 : (r0 / 2 + cond b 1 0 * 128) / 2 ^ t.length
        = r0 / 2 ^ (t.length + 1) + cond b 1 0 * 2 ^ (7 - t.length) := by
      rw [h128, Nat.add_mul_div_right _ _ hp, Nat.div_div_eq_div_mul, ← pow_succ']
    rw [e1]
    have h87 : 8 - (t.length + 1) = 7 - t.length := by omega
    have h2p : (2 : Nat) ^ (8 - t.length) = 2 * 2 ^ (7 - t.length) := by
      rw [← pow_succ']
      congr 1
      omega
    simp only [lsbVal, List.length_cons, h87, h2p]
    ring

theorem lsbVal_bitsOfByte (b : Nat) (hb : b < 256) : lsbVal (bitsOfByte b) = b := by
  have hall : ∀ b, b < 256 → lsbVal (bitsOfByte b) = b := by decide
  exact hall b hb

theorem bitsOfByte_length (b : Nat) : (bitsOfByte b).length = 8 := rfl

theorem windowAfter_eight (r0 : Nat) (bs : List Bool) (hr : r0 < 256)
    (hlen : bs.length = 8) :
    windowAfter r0 bs = lsbVal bs := by
  unfold windowAfter
  rw [foldl_shiftOp bs r0 (by omega) hr, hlen]
  simp [Nat.div_eq_of_lt hr]

theorem windowAfter_lt (r0 : Nat) (bs : List Bool) (hr : r0 < 256) :
    windowAfter r0 bs < 256 := by
  induction bs generalizing r0 with
  | nil => simpa [windowAfter] using hr
  | cons b t ih =>
    simpa [windowAfter, List.foldl_cons] using ih (shiftOp r0 b) (shiftOp_lt _ _ hr)

theorem windowAfter_append (r0 : Nat) (as bs : List Bool) :
    windowAfter r0 (as ++ bs) = windowAfter (windowAfter r0 as) bs := by
  simp [windowAfter, List.foldl_append]

theorem and_255_of_lt (x : Nat) (h : x < 256) : x &&& 0xFF = x := by
  have h2 := Nat.and_pow_two_sub_one_of_lt_two_pow (n := 8) (x := x)
    (by simpa using h)
  simpa using h2

theorem and_63_of_lt (x : Nat) (h : x < 64) : x &&& 0x3F = x := by
  have h2 := Nat.and_pow_two_sub_one_of_lt_two_pow (n := 6) (x := x)
    (by simpa using h)
  simpa using h2

theorem shr6_of_lt (x : Nat) (h : x < 64) : x >>> 6 = 0 := by
  rw [Nat.shiftRight_eq_div_pow]
  exact Nat.div_eq_of_lt (by simpa using h)

theorem shift_bits_presync (lane : Fin 4) (bit : Bool) (s : DecState)
    (hsync : s.syncDetected.get lane = false) :
    shift_bits lane bit s =
      (if shiftOp (s.bitShifters.get lane) bit &&& 0xFF = SYNC_MARKER
       then (applySyncActions lane
               { s with
                   bitShifters := s.bitShifters.set lane
                     (shiftOp (s.bitShifters.get lane) bit),
                   bitCounters := s.bitCounters.set lane
                     (s.bitCounters.get lane + 1) },
             [Event.syncEv lane.val])
       else ({ s with
                 bitShifters := s.bitShifters.set lane
                   (shiftOp (s.bitShifters.get lane) bit),
                 bitCounters := s.bitCounters.set lane
                   (s.bitCounters.get lane + 1) }, [])) := by
  unfold shift_bits
  simp [hsync]

theorem shift_bits_sync_mid (lane : Fin 4) (bit : Bool) (s : DecState)
    (hsync : s.syncDetected.get lane = true)
    (hctr : s.bitCounters.get lane + 1 < 8) :
    shift_bits lane bit s =
      ({ s with
           bitShifters := s.bitShifters.set lane
             (shiftOp (s.bitShifters.get lane) bit),
           bitCounters := s.bitCounters.set lane
             (s.bitCounters.get lane + 1) }, []) := by
  have h8 : ¬ (8 ≤ s.bitCounters.get lane + 1) := by omega
  unfold shift_bits
  simp [hsync, h8]

theorem shift_bits_sync_last (lane : Fin 4) (bit : Bool) (s : DecState)
    (hsync : s.syncDetected.get lane = true)
    (hctr : s.bitCounters.get lane = 7) :
    shift_bits lane bit s =
      (let bv := shiftOp (s.bitShifters.get lane) bit &&& 0xFF
       let r := process_packet_byte lane bv
           { s with bitShifters := s.bitShifters.set lane 0,
                    bitCounters := s.bitCounters.set lane 0 }
       if r.1.syncDetected.get lane = false ∧ bv = SYNC_MARKER
       then (applySyncActions lane r.1, r.2 ++ [Event.syncEv lane.val])
       else r) := by
  have h8 : 8 ≤ s.bitCounters.get lane + 1 := by omega
  unfold shift_bits
  simp only [hsync, h8, Lanes.get_set_self, Lanes.set_set, if_true, if_false,
    Bool.not_true, Bool.false_eq_true, not_false_iff, ite_true, ite_false,
    if_pos, Bool.not_eq_true]
  by_cases hafter :
      (process_packet_byte lane (shiftOp (s.bitShifters.get lane) bit &&& 0xFF)
        { s with bitShifters := s.bitShifters.set lane 0,
                 bitCounters := s.bitCounters.set lane 0 }).1.syncDetected.get lane
  · simp [hafter]
  · simp [hafter]

theorem feedBits_append (lane : Fin 4) (as bs : List Bool) (s : DecState) :
    feedBits lane (as ++ bs) s =
      ((feedBits lane bs (feedBits lane as s).1).1,
       (feedBits lane as s).2 ++ (feedBits lane bs (feedBits lane as s).1).2) := by
  induction as generalizing s with
  | nil => simp [feedBits]
  | cons a t ih => simp [feedBits, ih, List.append_assoc]

theorem feedBytes_append (lane : Fin 4) (as bs : List Nat) (s : DecState) :
    feedBytes lane (as ++ bs) s =
      ((feedBytes lane bs (feedBytes lane as s).1).1,
       (feedBytes lane as s).2 ++ (feedBytes lane bs (feedBytes lane as s).1).2) := by
  induction as generalizing s with
  | nil => simp [feedBytes]
  | cons a t ih => simp [feedBytes, ih, List.append_assoc]

theorem feedBits_sync_run (lane : Fin 4) (bs : List Bool) (s : DecState)
    (hsync : s.syncDetected.get lane = true)
    (hctr : s.bitCounters.get lane + bs.length < 8) :
    feedBits lane bs s =
      ({ s with
           bitShifters := s.bitShifters.set lane
             (windowAfter (s.bitShifters.get lane) bs),
           bitCounters := s.bitCounters.set lane
             (s.bitCounters.get lane + bs.length) }, []) := by
  induction bs generalizing s with
  | nil => simp [feedBits, windowAfter]
  | cons b t ih =>
    simp only [feedBits]
    rw [shift_bits_sync_mid lane b s hsync (by simp at hctr; omega)]
    rw [ih _ (by simpa using hsync) (by simp at hctr ⊢; omega)]
    have harith : s.bitCounters.get lane + 1 + t.length =
        s.bitCounters.get lane + (t.length + 1) := by omega
    simp [windowAfter, Lanes.set_set, List.foldl_cons, harith]

theorem feedBits_byte8 (lane : Fin 4) (bs : List Bool) (s : DecState)
    (hlen : bs.length = 8)
    (hsync : s.syncDetected.get lane = true)
    (hctr : s.bitCounters.get lane = 0)
    (hsh : s.bitShifters.get lane < 256) :
    feedBits lane bs s =
      (let r := process_packet_byte lane (lsbVal bs)
          { s with bitShifters := s.bitShifters.set lane 0 }
       if r.1.syncDetected.get lane = false ∧ lsbVal bs = SYNC_MARKER
       then (applySyncActions lane r.1, r.2 ++ [Event.syncEv lane.val])
       else r) := by
  obtain ⟨t, b, rfl, hlt⟩ : ∃ t b, bs = t ++ [b] ∧ t.length = 7 := by
    match bs, hlen with
    | [b0, b1, b2, b3, b4, b5, b6, b7], _ =>
      exact ⟨[b0, b1, b2, b3, b4, b5, b6], b7, rfl, rfl⟩
  rw [feedBits_append]
  rw [feedBits_sync_run lane t s hsync (by omega)]
  simp only [feedBits]
  rw [shift_bits_sync_last lane b _
    (by simpa using hsync) (by simp [hctr, hlt])]
  have hwlt : windowAfter (s.bitShifters.get lane) t < 256 :=
    windowAfter_lt _ _ hsh
  have hw8 : shiftOp (windowAfter (s.bitShifters.get lane) t) b &&& 0xFF =
      lsbVal (t ++ [b]) := by
    have h1 : shiftOp (windowAfter (s.bitShifters.get lane) t) b =
        windowAfter (s.bitShifters.get lane) (t ++ [b]) := by
      simp [windowAfter, List.foldl_append]
    rw [h1, windowAfter_eight _ _ hsh (by simp [hlt])]
    exact and_255_of_lt _ (by
      have := lsbVal_lt (t ++ [b])
      simp [hlt] at this
      omega)
  have hcc : s.bitCounters.set lane 0 = s.bitCounters := by
    rw [← hctr, Lanes.set_get_self]
  simp only [Lanes.get_set_self, Lanes.set_set, hctr, hw8, hcc]
  simp

theorem ppb_early (lane : Fin 4) (b : Nat) (s : DecState)
    (hc : s.packetState = .collectingPacket)
    (hlen : s.packetBuffer.length + 1 ≠ 4)
    (hexp : s.expectedPacketLength = 0) :
    process_packet_byte lane b s =
      ({ s with packetBuffer := s.packetBuffer ++ [b] }, []) := by
  unfold process_packet_byte
  simp [hc, hlen, hexp]

theorem ppb_mid (lane : Fin 4) (b : Nat) (s : DecState)
    (hc : s.packetState = .collectingPacket)
    (hge4 : 4 ≤ s.packetBuffer.length)
    (hlt : s.packetBuffer.length + 1 < s.expectedPacketLength) :
    process_packet_byte lane b s =
      ({ s with packetBuffer := s.packetBuffer ++ [b] }, []) := by
  have h4 : ¬ (s.packetBuffer.length + 1 = 4) := by omega
  have hno : ¬ (s.expectedPacketLength ≤ s.packetBuffer.length + 1) := by omega
  unfold process_packet_byte
  simp [hc, h4, hno]

theorem feedBytes_mid (lane : Fin 4) (bs : List Nat) (s : DecState)
    (hc : s.packetState = .collectingPacket)
    (hge4 : 4 ≤ s.packetBuffer.length)
    (hlt : s.packetBuffer.length + bs.length < s.expectedPacketLength) :
    feedBytes lane bs s =
      ({ s with packetBuffer := s.packetBuffer ++ bs }, []) := by
  induction bs generalizing s with
  | nil => simp [feedBytes]
  | cons b t ih =>
    simp only [feedBytes]
    rw [ppb_mid lane b s hc hge4 (by simp at hlt; omega)]
    dsimp only
    rw [ih ({ s with packetBuffer := s.packetBuffer ++ [b] }) hc
      (by simp; omega) (by simp at hlt ⊢; omega)]
    simp

theorem ppb_fourth_long (lane : Fin 4) (dt b1 b2 ecc : Nat) (s : DecState)
    (hc : s.packetState = .collectingPacket)
    (hbuf : s.packetBuffer = [dt, b1, b2])
    (hdt : 0x0F < dt) :
    process_packet_byte lane ecc s =
      ({ s with packetBuffer := [dt, b1, b2, ecc],
                expectedPacketLength := 4 + ((b2 <<< 8) ||| b1) + 2 }, []) := by
  have hne : ¬ (dt ≤ 0x0F) := by omega
  have hle : ¬ (4 + ((b2 <<< 8) ||| b1) + 2 ≤ 4) := by omega
  unfold process_packet_byte analyze_packet_header
  simp [hc, hbuf, hne, hle]

theorem feed_header_long (lane : Fin 4) (dt b1 b2 ecc : Nat) (s : DecState)
    (hc : s.packetState = .collectingPacket)
    (hbuf : s.packetBuffer = [])
    (hexp : s.expectedPacketLength = 0)
    (hdt : 0x0F < dt) :
    feedBytes lane [dt, b1, b2, ecc] s =
      ({ s with packetBuffer := [dt, b1, b2, ecc],
                expectedPacketLength := 4 + ((b2 <<< 8) ||| b1) + 2 }, []) := by
  simp only [feedBytes]
  rw [ppb_early lane dt s hc (by simp [hbuf]) hexp]
  dsimp only
  simp only [hbuf, List.nil_append]
  rw [ppb_early lane b1 ({ s with packetBuffer := [dt] }) hc (by simp) hexp]
  dsimp only
  simp only [List.cons_append, List.nil_append, List.singleton_append]
  rw [ppb_early lane b2 ({ s with packetBuffer := [dt, b1] }) hc (by simp) hexp]
  dsimp only
  simp only [List.cons_append, List.nil_append, List.singleton_append]
  rw [ppb_fourth_long lane dt b1 b2 ecc
    ({ s with packetBuffer := [dt, b1, b2] }) hc rfl hdt]
  simp


theorem ppb_complete_long (lane : Fin 4) (dt b1 b2 ecc c1 c2 : Nat)
    (payload : List Nat) (s : DecState)
    (hc : s.packetState = .collectingPacket)
    (hbuf : s.packetBuffer = dt :: b1 :: b2 :: ecc :: (payload ++ [c1]))
    (hdt : 0x0F < dt)
    (hW : payload.length = (b2 <<< 8) ||| b1)
    (hexp : s.expectedPacketLength = 4 + ((b2 <<< 8) ||| b1) + 2) :
    process_packet_byte lane c2 s =
      ({ s with
           packetBuffer := [],
           expectedPacketLength := 0,
           packetState := .idle,
           packetEndDetected := Lanes.zipWith
             (fun (bs old : Bool) => if bs then true else old)
             s.byteSynchronized s.packetEndDetected,
           syncDetected := Lanes.zipWith
             (fun (bs old : Bool) => if bs then false else old)
             s.byteSynchronized s.syncDetected },
       [Event.longPacket dt 0 ((b2 <<< 8) ||| b1) payload,
        Event.footer [c1, c2], Event.packetComplete]) := by
  have hne : ¬ (dt ≤ 0x0F) := by omega
  have hlen1 : (s.packetBuffer ++ [c2]).length = 4 + payload.length + 2 := by
    simp [hbuf]
    omega
  have h4 : ¬ ((s.packetBuffer ++ [c2]).length = 4) := by
    rw [hlen1]; omega
  have hdone : s.expectedPacketLength ≤ (s.packetBuffer ++ [c2]).length := by
    rw [hlen1, hexp, hW]
  have hpos : 0 < s.expectedPacketLength := by rw [hexp]; omega
  have hge : 4 ≤ (s.packetBuffer ++ [c2]).length := by rw [hlen1]; omega
  have htake : (s.packetBuffer ++ [c2]).take 4 = [dt, b1, b2, ecc] := by
    simp [hbuf]
  have hfits : 4 + ((b2 <<< 8) ||| b1) + 2 ≤ (s.packetBuffer ++ [c2]).length := by
    rw [hlen1, hW]
  have hdrop4 : (s.packetBuffer ++ [c2]).drop 4 = payload ++ [c1, c2] := by
    have hbuf2 : s.packetBuffer ++ [c2] =
        [dt, b1, b2, ecc] ++ (payload ++ [c1, c2]) := by
      simp [hbuf]
    rw [hbuf2]
    exact List.drop_left' (by rfl)
  have hpay : ((s.packetBuffer ++ [c2]).drop 4).take ((b2 <<< 8) ||| b1) =
      payload := by
    rw [hdrop4]
    exact List.take_left' hW
  have hcs : ((s.packetBuffer ++ [c2]).drop (4 + ((b2 <<< 8) ||| b1))).take 2 =
      [c1, c2] := by
    have hsplit : s.packetBuffer ++ [c2] =
        ([dt, b1, b2, ecc] ++ payload) ++ [c1, c2] := by
      simp [hbuf]
    rw [hsplit, List.drop_left' (by simp [hW]; omega)]
    rfl
  unfold process_packet_byte
  try dsimp only
  rw [if_pos hc]
  try dsimp only
  rw [if_neg h4]
  try dsimp only
  rw [if_pos ⟨hpos, hdone⟩]
  unfold process_complete_packet
  try dsimp only
  rw [if_pos hge, htake]
  simp only [h4, if_false, ite_false]
  have hfits2 : 4 + ((b2 <<< 8) ||| b1) + 1 ≤ s.packetBuffer.length := by
    rw [hbuf]
    simp
    omega
  simp [hne, hfits, hfits2, hpay, hcs, decode_long_packet]

theorem ppb_complete_short (lane : Fin 4) (dt dl dh ecc : Nat) (s : DecState)
    (hc : s.packetState = .collectingPacket)
    (hbuf : s.packetBuffer = [dt, dl, dh])
    (hdt : dt ≤ 0x0F) :
    process_packet_byte lane ecc s =
      ({ s with
           packetBuffer := [],
           expectedPacketLength := 0,
           packetState := .idle,
           packetEndDetected := Lanes.zipWith
             (fun (bs old : Bool) => if bs then true else old)
             s.byteSynchronized s.packetEndDetected,
           syncDetected := Lanes.zipWith
             (fun (bs old : Bool) => if bs then false else old)
             s.byteSynchronized s.syncDetected },
       [Event.shortPacket dt 0 ((dh <<< 8) ||| dl), Event.packetComplete]) := by
  have h63 : dt &&& 0x3F = dt := and_63_of_lt dt (by omega)
  have h6 : dt >>> 6 = 0 := shr6_of_lt dt (by omega)
  unfold process_packet_byte analyze_packet_header decode_short_packet
  try dsimp only
  simp [hc, hbuf, hdt, h63, h6, Nat.zero_shiftLeft, Nat.zero_or,
    Nat.zero_and, process_complete_packet]


/-- C1: for every long packet (header byte `dataType > 0x0F`), the assembler
sets the expected total length to `4 + dataField + 2` with `dataField` the
16-bit little-endian value of header bytes 1-2 (the payload word count `W`);
no completion fires while fewer than `4 + W + 2` post-sync bytes are
buffered; and at exactly `4 + W + 2` bytes the packet completes, dispatching
exactly the `W` payload bytes (buffer positions `4 .. 4+W-1`) and the
trailing 2 bytes as the checksum footer. -/
theorem C1_long_packet_assembly (lane : Fin 4) (dt b1 b2 ecc : Nat)
    (payload checksum : List Nat) (s : DecState)
    (hst : s.packetState = .collectingPacket)
    (hbuf : s.packetBuffer = [])
    (hexp : s.expectedPacketLength = 0)
    (hdt : 0x0F < dt)
    (hW : payload.length = (b2 <<< 8) ||| b1)
    (hcs : checksum.length = 2) :
    ((feedBytes lane [dt, b1, b2, ecc] s).1.expectedPacketLength =
        4 + ((b2 <<< 8) ||| b1) + 2) ∧
    (∀ k, k < payload.length + 2 →
      (feedBytes lane ([dt, b1, b2, ecc] ++ (payload ++ checksum).take k) s).2
          = [] ∧
      (feedBytes lane ([dt, b1, b2, ecc] ++ (payload ++ checksum).take k)
          s).1.packetState = .collectingPacket) ∧
    ((feedBytes lane ([dt, b1, b2, ecc] ++ (payload ++ checksum)) s).2 =
      [Event.longPacket dt 0 ((b2 <<< 8) ||| b1) payload,
       Event.footer checksum, Event.packetComplete]) ∧
    ((feedBytes lane ([dt, b1, b2, ecc] ++ (payload ++ checksum))
        s).1.packetState = .idle) := by
  obtain ⟨c1, c2, rfl⟩ : ∃ c1 c2, checksum = [c1, c2] := by
    match checksum, hcs with
    | [c1, c2], _ => exact ⟨c1, c2, rfl⟩
  have hheader := feed_header_long lane dt b1 b2 ecc s hst hbuf hexp hdt
  have hA : feedBytes lane ([dt, b1, b2, ecc] ++ (payload ++ [c1])) s =
      ({ s with packetBuffer := dt :: b1 :: b2 :: ecc :: (payload ++ [c1]),
                expectedPacketLength := 4 + ((b2 <<< 8) ||| b1) + 2 }, []) := by
    rw [feedBytes_append, hheader]
    dsimp only
    rw [feedBytes_mid lane (payload ++ [c1])
      ({ s with packetBuffer := [dt, b1, b2, ecc],
                expectedPacketLength := 4 + ((b2 <<< 8) ||| b1) + 2 })
      hst (by simp) (by simp; omega)]
    simp
  have hB := ppb_complete_long lane dt b1 b2 ecc c1 c2 payload
    ({ s with packetBuffer := dt :: b1 :: b2 :: ecc :: (payload ++ [c1]),
              expectedPacketLength := 4 + ((b2 <<< 8) ||| b1) + 2 })
    hst rfl hdt hW rfl
  have hsplit : [dt, b1, b2, ecc] ++ (payload ++ [c1, c2]) =
      ([dt, b1, b2, ecc] ++ (payload ++ [c1])) ++ [c2] := by simp
  refine ⟨?_, ?_, ?_, ?_⟩
  · rw [hheader]
  · intro k hk
    rw [feedBytes_append, hheader]
    dsimp only
    rw [feedBytes_mid lane ((payload ++ [c1, c2]).take k)
      ({ s with packetBuffer := [dt, b1, b2, ecc],
                expectedPacketLength := 4 + ((b2 <<< 8) ||| b1) + 2 })
      hst (by simp) (by simp [List.length_take]; omega)]
    exact ⟨rfl, hst⟩
  · rw [hsplit, feedBytes_append, hA]
    dsimp only
    simp only [feedBytes]
    rw [hB]
    simp
  · rw [hsplit, feedBytes_append, hA]
    dsimp only
    simp only [feedBytes]
    rw [hB]

theorem feed_first3 (lane : Fin 4) (a b c : Nat) (s : DecState)
    (hc : s.packetState = .collectingPacket)
    (hbuf : s.packetBuffer = [])
    (hexp : s.expectedPacketLength = 0) :
    feedBytes lane [a, b, c] s = ({ s with packetBuffer := [a, b, c] }, []) := by
  simp only [feedBytes]
  rw [ppb_early lane a s hc (by simp [hbuf]) hexp]
  dsimp only
  simp only [hbuf, List.nil_append]
  rw [ppb_early lane b ({ s with packetBuffer := [a] }) hc (by simp) hexp]
  dsimp only
  simp only [List.cons_append, List.nil_append, List.singleton_append]
  rw [ppb_early lane c ({ s with packetBuffer := [a, b] }) hc (by simp) hexp]
  dsimp only
  simp only [List.cons_append, List.nil_append, List.singleton_append]

theorem feedBits_byte_nocomplete (lane : Fin 4) (b : Nat) (s : DecState)
    (hb : b < 256) (hsync : s.syncDetected.get lane = true)
    (hctr : s.bitCounters.get lane = 0) (hsh : s.bitShifters.get lane < 256)
    (hc : s.packetState = .collectingPacket)
    (hlen : s.packetBuffer.length + 1 ≠ 4)
    (hexp : s.expectedPacketLength = 0) :
    feedBits lane (bitsOfByte b) s =
      ({ s with bitShifters := s.bitShifters.set lane 0,
                packetBuffer := s.packetBuffer ++ [b] }, []) := by
  rw [feedBits_byte8 lane (bitsOfByte b) s rfl hsync hctr hsh]
  dsimp only
  rw [lsbVal_bitsOfByte b hb]
  rw [ppb_early lane b ({ s with bitShifters := s.bitShifters.set lane 0 })
    hc hlen hexp]
  simp [hsync]

theorem feedBits_byte_complete_short (lane : Fin 4) (dt dl dh ecc : Nat)
    (s : DecState)
    (hecc : ecc < 256) (hsync : s.syncDetected.get lane = true)
    (hctr : s.bitCounters.get lane = 0) (hsh : s.bitShifters.get lane < 256)
    (hc : s.packetState = .collectingPacket)
    (hbuf : s.packetBuffer = [dt, dl, dh])
    (hdt : dt ≤ 0x0F)
    (hbsync : s.byteSynchronized.get lane = true) :
    (feedBits lane (bitsOfByte ecc) s).2 =
      [Event.shortPacket dt 0 ((dh <<< 8) ||| dl), Event.packetComplete] ++
      (if ecc = SYNC_MARKER then [Event.syncEv lane.val] else []) := by
  rw [feedBits_byte8 lane (bitsOfByte ecc) s rfl hsync hctr hsh]
  dsimp only
  rw [lsbVal_bitsOfByte ecc hecc]
  rw [ppb_complete_short lane dt dl dh ecc
    ({ s with bitShifters := s.bitShifters.set lane 0 }) hc hbuf hdt]
  by_cases he : ecc = SYNC_MARKER
  · simp [he, hbsync]
  · simp [he, hbsync]

/-- C2: a header whose first byte is `<= 0x0F` is classified short with total
length exactly 4 and dispatched the moment the 4th byte arrives, carrying
that data type and the 16-bit little-endian data value
`(byte2 <<< 8) ||| byte1`; and shifting `[0x02, dataLow, dataHigh, ecc]`
LSB-first through the deserializer after a valid synchronization byte yields
exactly the `ShortPacket` event with `dataType = 0x02` and
`data = (dataHigh <<< 8) ||| dataLow`. -/
theorem C2_short_packet (lane : Fin 4) (dt dl dh ecc : Nat) (s : DecState)
    (hdt : dt ≤ 0x0F) (hdl : dl < 256) (hdh : dh < 256) (hecc : ecc < 256)
    (hst : s.packetState = .collectingPacket)
    (hbuf : s.packetBuffer = [])
    (hexp : s.expectedPacketLength = 0) :
    (∀ k, k ≤ 3 → (feedBytes lane ([dt, dl, dh, ecc].take k) s).2 = []) ∧
    ((feedBytes lane [dt, dl, dh, ecc] s).2 =
      [Event.shortPacket dt 0 ((dh <<< 8) ||| dl), Event.packetComplete]) ∧
    ((feedBytes lane [dt, dl, dh, ecc] s).1.packetState = .idle) ∧
    ((feedBits 0 (bitsOfByte 0xB8 ++ (bitsOfByte 0x02 ++ (bitsOfByte dl ++
        (bitsOfByte dh ++ bitsOfByte ecc)))) resetState).2 =
      [Event.syncEv 0, Event.shortPacket 0x02 0 ((dh <<< 8) ||| dl),
       Event.packetComplete] ++
      (if ecc = SYNC_MARKER then [Event.syncEv 0] else [])) := by
  have h3 := feed_first3 lane dt dl dh s hst hbuf hexp
  have e1 : feedBytes lane [dt] s = ({ s with packetBuffer := [dt] }, []) := by
    simp only [feedBytes]
    rw [ppb_early lane dt s hst (by simp [hbuf]) hexp]
    dsimp only
    simp [hbuf]
  have e2 : feedBytes lane [dt, dl] s =
      ({ s with packetBuffer := [dt, dl] }, []) := by
    simp only [feedBytes]
    rw [ppb_early lane dt s hst (by simp [hbuf]) hexp]
    dsimp only
    simp only [hbuf, List.nil_append]
    rw [ppb_early lane dl ({ s with packetBuffer := [dt] }) hst (by simp) hexp]
    dsimp only
    try simp
  have hfull : feedBytes lane [dt, dl, dh, ecc] s =
      (feedBytes lane ([dt, dl, dh] ++ [ecc]) s) := rfl
  have hcompl := ppb_complete_short lane dt dl dh ecc
    ({ s with packetBuffer := [dt, dl, dh] }) hst rfl hdt
  refine ⟨?_, ?_, ?_, ?_⟩
  · intro k hk
    interval_cases k
    · rfl
    · simp only [List.take, e1]
    · simp only [List.take, e2]
    · simp only [List.take, h3]
  · rw [hfull, feedBytes_append, h3]
    dsimp only
    simp only [feedBytes]
    rw [hcompl]
    simp
  · rw [hfull, feedBytes_append, h3]
    dsimp only
    simp only [feedBytes]
    rw [hcompl]
  · have hb0 : feedBits 0 (bitsOfByte 0xB8) resetState =
        (postSyncState, [Event.syncEv 0]) := by
      rw [Prod.ext_iff]
      exact ⟨rfl, by decide⟩
    have hS2 : feedBits 0 (bitsOfByte 0x02) postSyncState =
        ({ postSyncState with
             bitShifters := postSyncState.bitShifters.set 0 0,
             packetBuffer := [0x02] }, []) := by
      rw [feedBits_byte_nocomplete 0 0x02 postSyncState (by decide) rfl rfl
        (by decide) rfl (by decide) rfl]
      simp [show postSyncState.packetBuffer = [] from rfl]
    have hS3 : feedBits 0 (bitsOfByte dl)
        ({ postSyncState with
             bitShifters := postSyncState.bitShifters.set 0 0,
             packetBuffer := [0x02] }) =
        ({ postSyncState with
             bitShifters := postSyncState.bitShifters.set 0 0,
             packetBuffer := [0x02, dl] }, []) := by
      rw [feedBits_byte_nocomplete 0 dl
        ({ postSyncState with
             bitShifters := postSyncState.bitShifters.set 0 0,
             packetBuffer := [0x02] }) hdl rfl rfl (by simp) rfl
        (by simp) rfl]
      simp [Lanes.set_set]
    have hS4 : feedBits 0 (bitsOfByte dh)
        ({ postSyncState with
             bitShifters := postSyncState.bitShifters.set 0 0,
             packetBuffer := [0x02, dl] }) =
        ({ postSyncState with
             bitShifters := postSyncState.bitShifters.set 0 0,
             packetBuffer := [0x02, dl, dh] }, []) := by
      rw [feedBits_byte_nocomplete 0 dh
        ({ postSyncState with
             bitShifters := postSyncState.bitShifters.set 0 0,
             packetBuffer := [0x02, dl] }) hdh rfl rfl (by simp) rfl
        (by simp) rfl]
      simp [Lanes.set_set]
    have hS5 := feedBits_byte_complete_short 0 0x02 dl dh ecc
      ({ postSyncState with
           bitShifters := postSyncState.bitShifters.set 0 0,
           packetBuffer := [0x02, dl, dh] })
      hecc rfl rfl (by simp) rfl rfl (by decide) rfl
    rw [feedBits_append, hb0]
    dsimp only
    rw [feedBits_append, hS2]
    dsimp only
    rw [feedBits_append, hS3]
    dsimp only
    rw [feedBits_append, hS4]
    dsimp only
    rw [hS5]
    simp

theorem feedBits_presync_nomatch (lane : Fin 4) (bits : List Bool)
    (s : DecState)
    (hsync : s.syncDetected.get lane = false)
    (hsh : s.bitShifters.get lane < 256)
    (hno : ∀ k, k < bits.length →
      windowAfter (s.bitShifters.get lane) (bits.take (k + 1)) ≠ SYNC_MARKER) :
    feedBits lane bits s =
      ({ s with
           bitShifters := s.bitShifters.set lane
             (windowAfter (s.bitShifters.get lane) bits),
           bitCounters := s.bitCounters.set lane
             (s.bitCounters.get lane + bits.length) }, []) := by
  induction bits generalizing s with
  | nil => simp [feedBits, windowAfter]
  | cons b t ih =>
    simp only [feedBits]
    rw [shift_bits_presync lane b s hsync]
    have hb : ¬ (shiftOp (s.bitShifters.get lane) b &&& 0xFF = SYNC_MARKER) := by
      have h1 := hno 0 (by simp)
      have h2 : windowAfter (s.bitShifters.get lane) ((b :: t).take 1) =
          shiftOp (s.bitShifters.get lane) b := by
        simp [windowAfter]
      rw [h2] at h1
      rwa [and_255_of_lt _ (shiftOp_lt _ _ hsh)]
    rw [if_neg hb]
    dsimp only
    rw [ih ({ s with
        bitShifters := s.bitShifters.set lane
          (shiftOp (s.bitShifters.get lane) b),
        bitCounters := s.bitCounters.set lane (s.bitCounters.get lane + 1) })
      hsync
      (by simp [Lanes.get_set_self]; exact shiftOp_lt _ _ hsh)
      (by
        intro k hk
        have h3 := hno (k + 1) (by simpa using hk)
        simpa [windowAfter, Lanes.get_set_self] using h3)]
    have harith : s.bitCounters.get lane + 1 + t.length =
        s.bitCounters.get lane + (t.length + 1) := by omega
    simp [windowAfter, Lanes.set_set, Lanes.get_set_self, harith]

theorem feedBits_presync_detect (lane : Fin 4) (bits : List Bool)
    (s : DecState)
    (hsync : s.syncDetected.get lane = false)
    (hsh : s.bitShifters.get lane < 256)
    (hne : 0 < bits.length)
    (hlast : windowAfter (s.bitShifters.get lane) bits = SYNC_MARKER)
    (hmin : ∀ k, k + 1 < bits.length →
      windowAfter (s.bitShifters.get lane) (bits.take (k + 1)) ≠ SYNC_MARKER) :
    feedBits lane bits s =
      (applySyncActions lane
        ({ s with
             bitShifters := s.bitShifters.set lane SYNC_MARKER,
             bitCounters := s.bitCounters.set lane
               (s.bitCounters.get lane + bits.length) }),
       [Event.syncEv lane.val]) := by
  obtain ⟨t, b, rfl⟩ : ∃ t b, bits = t ++ [b] := by
    rcases List.eq_nil_or_concat bits with h | ⟨t, b, h⟩
    · rw [h] at hne
      exact absurd hne (by simp)
    · exact ⟨t, b, by simpa [List.concat_eq_append] using h⟩
  have hno_t : ∀ k, k < t.length →
      windowAfter (s.bitShifters.get lane) (t.take (k + 1)) ≠ SYNC_MARKER := by
    intro k hk
    have h1 := hmin k (by simp; omega)
    rwa [List.take_append_of_le_length (by omega)] at h1
  rw [feedBits_append, feedBits_presync_nomatch lane t s hsync hsh hno_t]
  dsimp only
  simp only [feedBits]
  rw [shift_bits_presync lane b
    ({ s with
         bitShifters := s.bitShifters.set lane
           (windowAfter (s.bitShifters.get lane) t),
         bitCounters := s.bitCounters.set lane
           (s.bitCounters.get lane + t.length) })
    hsync]
  have hstep : shiftOp
      (windowAfter (s.bitShifters.get lane) t) b = SYNC_MARKER := by
    have := hlast
    rwa [windowAfter_append] at this
  have hmask : shiftOp (windowAfter (s.bitShifters.get lane) t) b &&& 0xFF =
      SYNC_MARKER := by
    rw [hstep]
    decide
  rw [Lanes.get_set_self, if_pos hmask]
  have harith : s.bitCounters.get lane + t.length + 1 =
      s.bitCounters.get lane + (t ++ [b]).length := by simp; omega
  simp [applySyncActions, Lanes.set_set, Lanes.get_set_self, hstep, harith]

/-- C10: before synchronization the deserializer compares the 8-bit shift
register with the marker `0xB8` after every shifted bit (a sliding window):
from any unsynchronized state (any leftover register contents and any bit
counter), if no window over the stream ever equals the marker no sync fires;
and sync fires exactly at the first bit position whose window equals the
marker, at which point the bit counter is reset to 0 so that the next
completed byte consists of exactly the 8 bits following the marker. -/
theorem C10_sliding_window_sync (lane : Fin 4) (bits : List Bool)
    (s : DecState)
    (hsync : s.syncDetected.get lane = false)
    (hsh : s.bitShifters.get lane < 256)
    (hexp : s.expectedPacketLength = 0) :
    ((∀ k, k ≤ bits.length → 1 ≤ k →
        windowAfter (s.bitShifters.get lane) (bits.take k) ≠ SYNC_MARKER) →
      (feedBits lane bits s).2 = [] ∧
      (feedBits lane bits s).1.syncDetected.get lane = false) ∧
    (∀ i, 1 ≤ i → i ≤ bits.length →
      windowAfter (s.bitShifters.get lane) (bits.take i) = SYNC_MARKER →
      (∀ k, k < i → 1 ≤ k →
        windowAfter (s.bitShifters.get lane) (bits.take k) ≠ SYNC_MARKER) →
      (feedBits lane (bits.take i) s).2 = [Event.syncEv lane.val] ∧
      (feedBits lane (bits.take i) s).1.syncDetected.get lane = true ∧
      (feedBits lane (bits.take i) s).1.bitCounters.get lane = 0 ∧
      (feedBits lane (bits.take i) s).1.packetBuffer = [] ∧
      (i + 8 ≤ bits.length →
        (feedBits lane (bits.take (i + 8)) s).1.packetBuffer =
          [lsbVal ((bits.drop i).take 8)])) := by
  constructor
  · intro hno
    rw [feedBits_presync_nomatch lane bits s hsync hsh
      (fun k hk => hno (k + 1) (by omega) (by omega))]
    exact ⟨rfl, hsync⟩
  · intro i hi1 hile hdet hmin
    have hlen : (bits.take i).length = i := List.length_take_of_le hile
    have hdetEq := feedBits_presync_detect lane (bits.take i) s hsync hsh
      (by omega)
      hdet
      (by
        intro k hk
        rw [hlen] at hk
        rw [List.take_take]
        have hmineq : min (k + 1) i = k + 1 := by omega
        rw [hmineq]
        exact hmin (k + 1) (by omega) (by omega))
    refine ⟨?_, ?_, ?_, ?_, ?_⟩
    · rw [hdetEq]
    · rw [hdetEq]
      simp [applySyncActions]
    · rw [hdetEq]
      simp [applySyncActions]
    · rw [hdetEq]
      simp [applySyncActions]
    · intro h8
      have hsplit : bits.take (i + 8) = bits.take i ++ (bits.drop i).take 8 :=
        List.take_add bits i 8
      have hlen8 : ((bits.drop i).take 8).length = 8 :=
        List.length_take_of_le (by simp; omega)
      rw [hsplit, feedBits_append, hdetEq]
      dsimp only
      rw [feedBits_byte8 lane ((bits.drop i).take 8) _ hlen8
        (by simp [applySyncActions])
        (by simp [applySyncActions])
        (by simp [applySyncActions, SYNC_MARKER])]
      dsimp only
      rw [ppb_early lane (lsbVal ((bits.drop i).take 8)) _
        (by simp [applySyncActions])
        (by simp [applySyncActions])
        (by simp [applySyncActions, hexp])]
      simp [applySyncActions]

/-- C1 witness: the spec's end-to-end long-packet scenario — RAW8 header
`[0x2A, 0x04, 0x00, 0x00]` (word count 4), payload `[0x10, 0x20, 0x30, 0x40]`
and checksum `[0xAA, 0xBB]` — fed byte-wise into the post-sync state. -/
theorem C1_witness :
    ((feedBytes 0 [0x2A, 0x04, 0x00, 0x00]
        postSyncState).1.expectedPacketLength =
      4 + ((0x00 <<< 8) ||| 0x04) + 2) ∧
    ((feedBytes 0 ([0x2A, 0x04, 0x00, 0x00] ++
        (([0x10, 0x20, 0x30, 0x40] ++ [0xAA, 0xBB]).take 5))
        postSyncState).2 = []) ∧
    ((feedBytes 0 ([0x2A, 0x04, 0x00, 0x00] ++
        ([0x10, 0x20, 0x30, 0x40] ++ [0xAA, 0xBB])) postSyncState).2 =
      [Event.longPacket 0x2A 0 ((0x00 <<< 8) ||| 0x04)
        [0x10, 0x20, 0x30, 0x40],
       Event.footer [0xAA, 0xBB], Event.packetComplete]) := by
  have h := C1_long_packet_assembly 0 0x2A 0x04 0x00 0x00
    [0x10, 0x20, 0x30, 0x40] [0xAA, 0xBB] postSyncState rfl rfl rfl
    (by decide) (by decide) rfl
  exact ⟨h.1, (h.2.1 5 (by decide)).1, h.2.2.1⟩

/-- C2 witness: the short packet `[0x02, 0x34, 0x12, 0x00]` (line start,
line number `0x1234`) fed byte-wise into the post-sync state and bit-wise
after the synchronization byte. -/
theorem C2_witness :
    ((feedBytes 0 [0x02, 0x34, 0x12, 0x00] postSyncState).2 =
      [Event.shortPacket 0x02 0 ((0x12 <<< 8) ||| 0x34),
       Event.packetComplete]) ∧
    ((feedBits 0 (bitsOfByte 0xB8 ++ (bitsOfByte 0x02 ++ (bitsOfByte 0x34 ++
        (bitsOfByte 0x12 ++ bitsOfByte 0x00)))) resetState).2 =
      [Event.syncEv 0, Event.shortPacket 0x02 0 ((0x12 <<< 8) ||| 0x34),
       Event.packetComplete] ++
      (if (0x00 : Nat) = SYNC_MARKER then [Event.syncEv 0] else [])) := by
  have h := C2_short_packet 0 0x02 0x34 0x12 0x00 postSyncState
    (by decide) (by decide) (by decide) (by decide) rfl rfl rfl
  exact ⟨h.2.1, h.2.2.2⟩

/-- C10 witness: the window over the fresh bitstream
`bitsOfByte 0xB8 ++ bitsOfByte 0x2A` first equals the marker at bit 8; sync
fires there, the counter resets, and the next completed byte is `0x2A`. -/
theorem C10_witness :
    ((feedBits 0 ((bitsOfByte 0xB8 ++ bitsOfByte 0x2A).take 8) resetState).2 =
        [Event.syncEv 0]) ∧
    ((feedBits 0 ((bitsOfByte 0xB8 ++ bitsOfByte 0x2A).take 8)
        resetState).1.syncDetected.get 0 = true) ∧
    ((feedBits 0 ((bitsOfByte 0xB8 ++ bitsOfByte 0x2A).take 8)
        resetState).1.bitCounters.get 0 = 0) ∧
    ((feedBits 0 ((bitsOfByte 0xB8 ++ bitsOfByte 0x2A).take (8 + 8))
        resetState).1.packetBuffer =
      [lsbVal (((bitsOfByte 0xB8 ++ bitsOfByte 0x2A).drop 8).take 8)]) := by
  have h := (C10_sliding_window_sync 0 (bitsOfByte 0xB8 ++ bitsOfByte 0x2A)
    resetState rfl (by decide) rfl).2 8 (by decide) (by decide) (by decide)
    (by decide)
  exact ⟨h.1, h.2.1, h.2.2.1, h.2.2.2.2 (by decide)⟩

/-- C7 witness: the 16-bit format given 3 bytes emits exactly one sample, and
an unknown data type emits one generic sample per byte. -/
theorem C7_witness :
    (decode_pixel_data 0x2E [1, 2, 3]).length =
      ([1, 2, 3] : List Nat).length / 2 ∧
    (decode_pixel_data 0x99 [1, 2, 3]).length =
      ([1, 2, 3] : List Nat).length := by
  exact ⟨C7_group_counts.2.2.1 [1, 2, 3],
    C7_group_counts.2.2.2.2.2 0x99 [1, 2, 3] (by decide) (by decide)
      (by decide) (by decide) (by decide)⟩
